import Mathlib

/-!
Verification of the core runtime substrate of the boa ECMAScript engine:
the primitive string operations (`JsString.index_of`, `JsString.string_to_number`
from `src/boa/src/string.rs`) and the environment-record hierarchy
(`FunctionEnvironmentRecord` from `src/boa/src/environment/function_environment_record.rs`,
`GlobalEnvironmentRecord` from `src/boa/src/environment/global_environment_record.rs`).

Strings are embedded as lists of Unicode scalar values (Lean `Char` coincides
with Rust `char`); UTF-16 encoding and lossy decoding are spelled out explicitly.
IEEE-754 doubles are embedded as an inductive with NaN, the two infinities and
exact finite rationals; none of the verified claims depends on rounding.
Fallible operations return an explicit outcome (ok / thrown error / panic):
Rust `panic!`, `todo!` and failed `assert!` are the `panicked` constructor.
-/

/-! ## Numbers, values, errors, outcomes -/

/-- An IEEE-754 double as the engine observes it in these claims: NaN, the two
infinities, or an exact finite value (rounding is irrelevant to every claim
checked here, so finite values are kept as exact rationals). -/
inductive JsNumber where
  | nan : JsNumber
  | posInf : JsNumber
  | negInf : JsNumber
  | finite : ℚ → JsNumber
deriving DecidableEq, Repr

/-- An opaque reference to a heap object (identity only; no claim here reads
through an object reference other than the global object, which is embedded
structurally below). -/
structure JsObject where
  id : Nat
deriving DecidableEq, Repr

/-- The engine's tagged value type (`JsValue`), restricted to the variants the
verified claims can observe. -/
inductive JsValue where
  | undefined : JsValue
  | null : JsValue
  | boolean : Bool → JsValue
  | number : JsNumber → JsValue
  | string : List Char → JsValue
  | object : JsObject → JsValue
deriving DecidableEq, Repr

/-- `JsValue::is_undefined`. -/
def JsValue.is_undefined : JsValue → Bool
  | .undefined => true
  | _ => false

/-- `JsValue::is_object`. -/
def JsValue.is_object : JsValue → Bool
  | .object _ => true
  | _ => false

/-- The error kinds the environment records throw. -/
inductive JsError where
  | typeError : String → JsError
  | referenceError : String → JsError
deriving DecidableEq, Repr

/-- The result of running a fallible engine operation: a value, a thrown error
(Rust `Err(JsValue)` carrying the error), or a process abort (`panic!`,
`todo!`, a failed `assert!`). -/
inductive Outcome (α : Type) where
  | ok : α → Outcome α
  | err : JsError → Outcome α
  | panicked : String → Outcome α
deriving DecidableEq, Repr

/-- Map over the value of a successful outcome. -/
def Outcome.map {α β : Type} (f : α → β) : Outcome α → Outcome β
  | .ok v => .ok (f v)
  | .err e => .err e
  | .panicked m => .panicked m

/-! ## UTF-16 transcoding

`JsString` stores UTF-8; `index_of` works over the UTF-16 code-unit view
produced by Rust's `str::encode_utf16`, and decodes candidate slices back with
`String::from_utf16_lossy`. Both are embedded here over `List Char`
(a `Char` is a Unicode scalar value, exactly Rust's `char`). -/

/-- The string content of a `JsString` (its UTF-8 payload, as the sequence of
Unicode scalar values it encodes). -/
abbrev JsStr := List Char

/-- UTF-16 encoding of one scalar value, as `char::encode_utf16`: one code unit
below `0x10000`, otherwise a surrogate pair. -/
def encodeUtf16Char (c : Char) : List Nat :=
  let n := c.toNat
  if n < 0x10000 then [n]
  else [0xD800 + (n - 0x10000) / 0x400, 0xDC00 + (n - 0x10000) % 0x400]

/-- The UTF-16 code-unit sequence of a string, as `str::encode_utf16`. -/
def utf16 (s : JsStr) : List Nat := (s.map encodeUtf16Char).flatten

def isHighSurrogate (u : Nat) : Bool := 0xD800 ≤ u && u ≤ 0xDBFF

def isLowSurrogate (u : Nat) : Bool := 0xDC00 ≤ u && u ≤ 0xDFFF

/-- Lossy UTF-16 decoding, as `String::from_utf16_lossy`: a high surrogate
followed by a low surrogate combines into one scalar; any unpaired surrogate
becomes U+FFFD. -/
def utf16Lossy : List Nat → List Char
  | [] => []
  | u :: v :: rest =>
    if isHighSurrogate u then
      if isLowSurrogate v then
        Char.ofNat (0x10000 + (u - 0xD800) * 0x400 + (v - 0xDC00)) :: utf16Lossy rest
      else
        Char.ofNat 0xFFFD :: utf16Lossy (v :: rest)
    else if isLowSurrogate u then Char.ofNat 0xFFFD :: utf16Lossy (v :: rest)
    else Char.ofNat u :: utf16Lossy (v :: rest)
  | [u] =>
    if isHighSurrogate u || isLowSurrogate u then [Char.ofNat 0xFFFD]
    else [Char.ofNat u]

/-! ## `JsString::index_of` (src/boa/src/string.rs lines 202-241) -/

/-- The candidate substring the loop body of `index_of` builds at position `i`:
the code units `skip(i).take(search_len)`, decoded with
`String::from_utf16_lossy` and compared with the needle as a string. -/
def jsCandidate (s16 : List Nat) (i searchLen : Nat) : JsStr :=
  utf16Lossy ((s16.drop i).take searchLen)

/-- The `for i in from_index..=len` loop of `index_of`. `rem` is the number of
indices the range has left to yield (`len + 1 - i` at entry), so the recursion
is structural; the `break` guard and the candidate comparison are exactly the
loop body's. -/
def indexOfLoop (s16 : List Nat) (needle : JsStr) (searchLen len : Nat) :
    Nat → Nat → Option Nat
  | _, 0 => none
  | i, rem + 1 =>
    if (i : Int) > (len : Int) - (searchLen : Int) then none
    else if jsCandidate s16 i searchLen = needle then some i
    else indexOfLoop s16 needle searchLen len (i + 1) rem

/-- `JsString::index_of(search_value, from_index)`: `len` and `search_len` are
UTF-16 code-unit counts; an empty needle with `from_index ≤ len` returns
`from_index` at once; otherwise the loop scans `from_index..=len` with the
early break `i > len - search_len` (computed over `isize`). -/
def JsString.index_of (s search_value : JsStr) (from_index : Nat) : Option Nat :=
  let len := (utf16 s).length
  if search_value = [] ∧ from_index ≤ len then some from_index
  else
    let search_len := (utf16 search_value).length
    indexOfLoop (utf16 s) search_value search_len len from_index (len + 1 - from_index)

/-- The claim's reading of `index_of`, amended only in the comparison: the
least `i` with `fromIndex ≤ i ≤ len − searchLen` whose code-unit substring,
decoded with unpaired surrogates replaced by U+FFFD (`from_utf16_lossy`),
equals the needle — rather than plain code-unit equality, which the code does
not implement. Least-ness is expressed by `List.find?` over the ascending
range. -/
def indexOfAmendedSpec (s search_value : JsStr) (from_index : Nat) : Option Nat :=
  let len := (utf16 s).length
  let search_len := (utf16 search_value).length
  if search_value = [] then
    if from_index ≤ len then some from_index else none
  else
    (List.range' from_index (len + 1 - search_len - from_index)).find?
      (fun i => decide (jsCandidate (utf16 s) i search_len = search_value))

/-! ## `JsString::string_to_number` (src/boa/src/string.rs lines 243-266) -/

/-- Modelled from the spec: `is_trimmable_whitespace` (the engine's
`String.prototype.trim` whitespace set, in `src/boa/src/builtins/string`,
not among the sampled files) — space, tab, the newline families (LF, CR,
vertical tab, form feed), NBSP, BOM, the Unicode space separators, and the
line/paragraph separators. -/
def is_trimmable_whitespace (c : Char) : Bool :=
  let n := c.toNat
  n = 0x0009 ∨ n = 0x000B ∨ n = 0x000C ∨ n = 0x0020 ∨ n = 0x00A0 ∨ n = 0xFEFF ∨
    n = 0x1680 ∨ (0x2000 ≤ n ∧ n ≤ 0x200A) ∨ n = 0x202F ∨ n = 0x205F ∨ n = 0x3000 ∨
    n = 0x000A ∨ n = 0x000D ∨ n = 0x2028 ∨ n = 0x2029

/-- Rust `str::trim_matches(pred)`: drop matching characters from both ends. -/
def trimMatches (p : Char → Bool) (s : JsStr) : JsStr :=
  ((s.dropWhile p).reverse.dropWhile p).reverse

/-- Rust `char::to_ascii_lowercase`. -/
def asciiLower (c : Char) : Char :=
  if 'A' ≤ c ∧ c ≤ 'Z' then Char.ofNat (c.toNat + 32) else c

def isAsciiDigit (c : Char) : Bool := '0' ≤ c ∧ c ≤ '9'

/-- The numeric value of a digit string (most significant first). -/
def digitsToNat (ds : JsStr) : Nat := ds.foldl (fun a c => 10 * a + (c.toNat - 48)) 0

/-- Modelled from the spec: the semantics of `fast_float::parse` (the external
fast-float crate the engine delegates to; its source is not part of this
repository). Per its documented grammar it accepts, consuming the whole
input: an optional sign; either the case-insensitive special values
`inf`/`infinity`/`nan`, or a decimal significand (digits with an optional
point, at least one digit) with an optional `e`/`E` exponent. Anything else —
including hexadecimal notation such as `0xFF` — is a parse error. Finite
results are kept exact (rounding to binary64 is irrelevant to the claims). -/
def fastFloatParse (s : JsStr) : Option JsNumber :=
  match s with
  | [] => none
  | _ =>
    let neg := s.head? = some '-'
    let rest := if s.head? = some '-' ∨ s.head? = some '+' then s.tail else s
    let lower := rest.map asciiLower
    if lower = "inf".data ∨ lower = "infinity".data then
      some (if neg then .negInf else .posInf)
    else if lower = "nan".data then some .nan
    else
      let intDigits := rest.takeWhile isAsciiDigit
      let rest1 := rest.dropWhile isAsciiDigit
      let fracDigits :=
        match rest1 with
        | '.' :: r => r.takeWhile isAsciiDigit
        | _ => []
      let rest2 :=
        match rest1 with
        | '.' :: r => r.dropWhile isAsciiDigit
        | _ => rest1
      if intDigits = [] ∧ fracDigits = [] then none
      else
        let digitsVal := digitsToNat (intDigits ++ fracDigits)
        let expPart : Option Int :=
          match rest2 with
          | [] => some 0
          | e :: r =>
            if e = 'e' ∨ e = 'E' then
              let eneg := r.head? = some '-'
              let r2 := if r.head? = some '-' ∨ r.head? = some '+' then r.tail else r
              let eDigits := r2.takeWhile isAsciiDigit
              if eDigits = [] ∨ r2.dropWhile isAsciiDigit ≠ [] then none
              else some (if eneg then -(digitsToNat eDigits : Int) else (digitsToNat eDigits : Int))
            else none
        match expPart with
        | none => none
        | some e =>
          -- the exact value ±digitsVal · 10^(e − |fraction digits|), built as a
          -- normalized fraction (10^e with e ≥ 0 scales the numerator, e < 0
          -- the denominator)
          let net : Int := e - fracDigits.length
          let num : Int := digitsVal * 10 ^ net.toNat
          let den : Nat := 10 ^ (-net).toNat
          some (.finite (mkRat (if neg then -num else num) den))

/-- `JsString::string_to_number`: trim the engine's whitespace set from both
ends, then match in order — empty, the exact `Infinity` spellings, the
four-character abbreviation guard (lowercased `take(4)` against
`inf`/`+inf`/`-inf`/`nan`/`+nan`/`-nan`), and finally `fast_float::parse`
with NaN on failure. -/
def JsString.string_to_number (s : JsStr) : JsNumber :=
  let string := trimMatches is_trimmable_whitespace s
  if string = [] then .finite 0
  else if string = "Infinity".data ∨ string = "+Infinity".data then .posInf
  else if string = "-Infinity".data then .negInf
  else if ((string.take 4).map asciiLower) ∈
      ["inf".data, "+inf".data, "-inf".data, "nan".data, "+nan".data, "-nan".data] then
    .nan
  else (fastFloatParse string).getD .nan

/-- The claim's reading of `string_to_number`, amended only at hexadecimal
inputs: identical staging (trim; empty; `Infinity` spellings; the
case-insensitive four-character guard; fast-float parse with NaN on failure),
stated with the guard as the claim words it. -/
def stringToNumberAmendedSpec (s : JsStr) : JsNumber :=
  let t := trimMatches is_trimmable_whitespace s
  if t = [] then .finite 0
  else if t = "Infinity".data then .posInf
  else if t = "+Infinity".data then .posInf
  else if t = "-Infinity".data then .negInf
  else if ["inf", "+inf", "-inf", "nan", "+nan", "-nan"].any
      (fun w => (t.take 4).map asciiLower = w.data) then
    .nan
  else match fastFloatParse t with
    | some x => x
    | none => .nan

/-! ## Property descriptors and the global object

The property machinery lives outside the sampled files; it is modelled from
the spec's external-interface section (property get/delete/define,
extensibility) and §4.5's notes on descriptor defaults. -/

/-- A property descriptor as boa stores it: every attribute optional (the
builder only sets the fields the caller names). `expect_configurable`,
`writable()` and `enumerable()` read these options. -/
structure PropertyDescriptor where
  value : Option JsValue := none
  writable : Option Bool := none
  enumerable : Option Bool := none
  configurable : Option Bool := none
deriving DecidableEq, Repr

/-- `PropertyDescriptor::expect_configurable`: the attribute's value, a panic
when it was never set. -/
def PropertyDescriptor.expect_configurable (d : PropertyDescriptor) : Outcome Bool :=
  match d.configurable with
  | some c => .ok c
  | none => .panicked "configurable field expected"

/-- Modelled from the spec: the global object — a flat property map plus the
extensibility flag (prototype chains are outside the sampled core). -/
structure GlobalObject where
  properties : List (String × PropertyDescriptor)
  extensible : Bool
deriving DecidableEq, Repr

def mapRemove (m : List (String × PropertyDescriptor)) (n : String) :
    List (String × PropertyDescriptor) :=
  m.filter (fun p => p.1 != n)

def mapPut (m : List (String × PropertyDescriptor)) (n : String)
    (d : PropertyDescriptor) : List (String × PropertyDescriptor) :=
  (n, d) :: mapRemove m n

/-- `JsObject::get_property`. -/
def GlobalObject.get_property (o : GlobalObject) (n : String) : Option PropertyDescriptor :=
  List.lookup n o.properties

/-- `JsValue::has_field`: the object has a property of that name. -/
def GlobalObject.has_field (o : GlobalObject) (n : String) : Bool :=
  (o.get_property n).isSome

/-- `JsValue::is_extensible`. -/
def GlobalObject.is_extensible (o : GlobalObject) : Bool := o.extensible

/-- Modelled from the spec: `JsObject::insert(name, desc)` — install the
descriptor, the engine filling the defaults for the attributes the builder
left unset (§4.5: "install a fresh data descriptor { value } (engine fills
defaults)"). -/
def GlobalObject.insert (o : GlobalObject) (n : String) (d : PropertyDescriptor) :
    GlobalObject :=
  let filled : PropertyDescriptor :=
    { value := some (d.value.getD .undefined)
      writable := some (d.writable.getD false)
      enumerable := some (d.enumerable.getD false)
      configurable := some (d.configurable.getD false) }
  { o with properties := mapPut o.properties n filled }

/-- Modelled from the spec: property deletion on the global object — the
property is removed iff it is configurable (absent names delete trivially). -/
def GlobalObject.delete (o : GlobalObject) (n : String) : Bool × GlobalObject :=
  match o.get_property n with
  | none => (true, o)
  | some d =>
    if d.configurable = some true then (true, { o with properties := mapRemove o.properties n })
    else (false, o)

/-! ## Declarative environment record

Modelled from the spec (§3 "Binding", §4.2): the source file
`declarative_environment_record.rs` is not among the sampled files. The
embedded outer-environment handle is dropped — no verified claim walks the
chain. -/

/-- A named slot: value present iff initialized, plus mutability, deletability
and the strictness recorded for immutable bindings. -/
structure Binding where
  value : Option JsValue
  mutable_binding : Bool
  deletable : Bool
  strict : Bool
deriving DecidableEq, Repr

/-- Modelled from the spec: a declarative record is a name-to-binding map with
unique keys. -/
structure DeclarativeEnvironmentRecord where
  bindings : List (String × Binding)
deriving DecidableEq, Repr

namespace DeclarativeEnvironmentRecord

def lookup (d : DeclarativeEnvironmentRecord) (n : String) : Option Binding :=
  List.lookup n d.bindings

def put (d : DeclarativeEnvironmentRecord) (n : String) (b : Binding) :
    DeclarativeEnvironmentRecord :=
  { bindings := (n, b) :: d.bindings.filter (fun p => p.1 != n) }

/-- Modelled from the spec: `has_binding`. -/
def has_binding (d : DeclarativeEnvironmentRecord) (n : String) : Bool :=
  (d.lookup n).isSome

/-- Modelled from the spec: `create_mutable_binding(name, deletable,
allow_reuse)` — an already-present name is a type error unless reuse is
allowed; otherwise an uninitialized mutable binding is added. -/
def create_mutable_binding (d : DeclarativeEnvironmentRecord) (n : String)
    (deletable allow_name_reuse : Bool) : Outcome DeclarativeEnvironmentRecord :=
  if !allow_name_reuse && d.has_binding n then
    .err (.typeError ("Binding already exists for " ++ n))
  else
    .ok (d.put n { value := none, mutable_binding := true, deletable := deletable,
                   strict := false })

/-- Modelled from the spec: `create_immutable_binding(name, strict)`. -/
def create_immutable_binding (d : DeclarativeEnvironmentRecord) (n : String)
    (strict : Bool) : Outcome DeclarativeEnvironmentRecord :=
  if d.has_binding n then
    .err (.typeError ("Binding already exists for " ++ n))
  else
    .ok (d.put n { value := none, mutable_binding := false, deletable := false,
                   strict := strict })

/-- Modelled from the spec: `initialize_binding(name, value)` — store the value
and mark the binding initialized (a missing name is an engine invariant
violation). -/
def initialize_binding (d : DeclarativeEnvironmentRecord) (n : String) (v : JsValue) :
    Outcome DeclarativeEnvironmentRecord :=
  match d.lookup n with
  | some b => .ok (d.put n { b with value := some v })
  | none => .panicked "initialize_binding: binding not found"

/-- Modelled from the spec: `get_binding_value(name, strict)` — an
uninitialized binding is a reference error; a missing name is an engine
invariant violation. -/
def get_binding_value (d : DeclarativeEnvironmentRecord) (n : String) (_strict : Bool) :
    Outcome JsValue :=
  match d.lookup n with
  | some b =>
    match b.value with
    | some v => .ok v
    | none => .err (.referenceError (n ++ " is an uninitialized binding"))
  | none => .panicked "get_binding_value: binding not found"

/-- Modelled from the spec: `set_mutable_binding(name, value, strict)` —
writing an uninitialized binding sets the value and marks it initialized;
writing an immutable initialized binding is a type error in strict mode and a
silent no-op otherwise; a missing name follows §8.1.1.1.5 (strict: reference
error; sloppy: create and initialize). -/
def set_mutable_binding (d : DeclarativeEnvironmentRecord) (n : String) (v : JsValue)
    (strict : Bool) : Outcome DeclarativeEnvironmentRecord :=
  match d.lookup n with
  | some b =>
    match b.value with
    | none => .ok (d.put n { b with value := some v })
    | some _ =>
      if b.mutable_binding then .ok (d.put n { b with value := some v })
      else if strict then .err (.typeError ("Cannot assign to immutable binding " ++ n))
      else .ok d
  | none =>
    if strict then .err (.referenceError (n ++ " is not defined"))
    else .ok (d.put n { value := some v, mutable_binding := true, deletable := true,
                        strict := false })

/-- Modelled from the spec: `delete_binding(name)` — a non-deletable binding
refuses deletion without mutating; a missing name reports true (unreachable
from the global record, whose delegation is guarded by `has_binding`). -/
def delete_binding (d : DeclarativeEnvironmentRecord) (n : String) :
    Bool × DeclarativeEnvironmentRecord :=
  match d.lookup n with
  | some b =>
    if b.deletable then (true, { bindings := d.bindings.filter (fun p => p.1 != n) })
    else (false, d)
  | none => (true, d)

end DeclarativeEnvironmentRecord

/-! ## Object environment record

Modelled from the spec (§4.3): `object_environment_record.rs` is not among the
sampled files. Binding operations translate to property operations on the
wrapped object. -/

structure ObjectEnvironmentRecord where
  bindings : GlobalObject
  with_environment : Bool
deriving DecidableEq, Repr

namespace ObjectEnvironmentRecord

/-- Modelled from the spec: `has_binding` — the object has the property. -/
def has_binding (r : ObjectEnvironmentRecord) (n : String) : Bool :=
  r.bindings.has_field n

/-- Modelled from the spec: `create_mutable_binding` installs a writable,
enumerable, (configurable iff deletable) data property valued undefined. -/
def create_mutable_binding (r : ObjectEnvironmentRecord) (n : String) (deletable : Bool) :
    ObjectEnvironmentRecord :=
  let d : PropertyDescriptor :=
    { value := some .undefined, writable := some true, enumerable := some true,
      configurable := some deletable }
  { r with bindings := r.bindings.insert n d }

/-- Modelled from the spec: `initialize_binding` assigns the value (the
attributes of an existing property are kept). -/
def initialize_binding (r : ObjectEnvironmentRecord) (n : String) (v : JsValue) :
    ObjectEnvironmentRecord :=
  match r.bindings.get_property n with
  | some d => { r with bindings :=
      { r.bindings with properties := mapPut r.bindings.properties n { d with value := some v } } }
  | none =>
    let d : PropertyDescriptor :=
      { value := some v, writable := some true, enumerable := some true,
        configurable := some true }
    { r with bindings := r.bindings.insert n d }

/-- Modelled from the spec: `get_binding_value(name, strict)` — a missing
property is a reference error in strict mode and undefined otherwise. -/
def get_binding_value (r : ObjectEnvironmentRecord) (n : String) (strict : Bool) :
    Outcome JsValue :=
  match r.bindings.get_property n with
  | some d => .ok (d.value.getD .undefined)
  | none =>
    if strict then .err (.referenceError (n ++ " has no binding"))
    else .ok .undefined

/-- Modelled from the spec: `set_mutable_binding(name, value, strict)` — a
writable property is updated; a non-writable one is a strict-mode type error
and a sloppy no-op; a missing property is created when the object is
extensible. -/
def set_mutable_binding (r : ObjectEnvironmentRecord) (n : String) (v : JsValue)
    (strict : Bool) : Outcome ObjectEnvironmentRecord :=
  match r.bindings.get_property n with
  | some d =>
    if d.writable = some true then
      .ok { r with bindings :=
        { r.bindings with properties := mapPut r.bindings.properties n { d with value := some v } } }
    else if strict then .err (.typeError ("Cannot assign to read-only property " ++ n))
    else .ok r
  | none =>
    if r.bindings.is_extensible then
      let d : PropertyDescriptor :=
        { value := some v, writable := some true, enumerable := some true,
          configurable := some true }
      .ok { r with bindings := r.bindings.insert n d }
    else if strict then .err (.typeError ("Cannot define property " ++ n))
    else .ok r

/-- Modelled from the spec: `delete_binding` deletes the property. -/
def delete_binding (r : ObjectEnvironmentRecord) (n : String) :
    Bool × ObjectEnvironmentRecord :=
  let (ok, o) := r.bindings.delete n
  (ok, { r with bindings := o })

end ObjectEnvironmentRecord

/-! ## Function environment record
(src/boa/src/environment/function_environment_record.rs) -/

/-- The `this`-binding status of a function environment record. -/
inductive BindingStatus where
  | Lexical : BindingStatus
  | Initialized : BindingStatus
  | Uninitialized : BindingStatus
deriving DecidableEq, Repr

/-- `FunctionEnvironmentRecord` (table 16): the embedded declarative record,
the `this` slot and its status, the owning function, `[[HomeObject]]` and
`[[NewTarget]]`. -/
structure FunctionEnvironmentRecord where
  declarative_record : DeclarativeEnvironmentRecord
  this_value : JsValue
  this_binding_status : BindingStatus
  function : JsObject
  home_object : JsValue
  new_target : JsValue
deriving DecidableEq, Repr

namespace FunctionEnvironmentRecord

/-- `FunctionEnvironmentRecord::bind_this_value` as the source has it:
`Lexical` panics ("Cannot bind to an arrow function!"); `Initialized` hits the
`todo!()` macro — a panic with the message "not yet implemented", the
reference-error throw being commented out; `Uninitialized` stores the value
and transitions to `Initialized`. -/
def bind_this_value (r : FunctionEnvironmentRecord) (v : JsValue) :
    Outcome (JsValue × FunctionEnvironmentRecord) :=
  match r.this_binding_status with
  | .Lexical => .panicked "Cannot bind to an arrow function!"
  | .Initialized => .panicked "not yet implemented"
  | .Uninitialized =>
    .ok (v, { r with this_value := v, this_binding_status := .Initialized })

/-- `has_this_binding`: every status but `Lexical`. -/
def has_this_binding (r : FunctionEnvironmentRecord) : Bool :=
  match r.this_binding_status with
  | .Lexical => false
  | _ => true

/-- `get_this_binding`: `Lexical` panics, `Uninitialized` throws a reference
error, `Initialized` returns the stored value. -/
def get_this_binding (r : FunctionEnvironmentRecord) : Outcome JsValue :=
  match r.this_binding_status with
  | .Lexical => .panicked "There is no this for a lexical function record"
  | .Uninitialized => .err (.referenceError "Uninitialised binding for this function")
  | .Initialized => .ok r.this_value

/-- `has_super_binding` as the source has it: `Lexical` is false; otherwise
the test is `!self.home_object.is_undefined()`. -/
def has_super_binding (r : FunctionEnvironmentRecord) : Bool :=
  match r.this_binding_status with
  | .Lexical => false
  | _ => !r.home_object.is_undefined

end FunctionEnvironmentRecord

/-! ## Global environment record
(src/boa/src/environment/global_environment_record.rs) -/

/-- `GlobalEnvironmentRecord`: the object record over the global object, the
fixed `globalThis`, the declarative record, and the var-declared-names set
(kept as a duplicate-free list). -/
structure GlobalEnvironmentRecord where
  object_record : ObjectEnvironmentRecord
  global_this_binding : JsObject
  declarative_record : DeclarativeEnvironmentRecord
  var_names : List String
deriving DecidableEq, Repr

/-- The state an operation leaves behind: the new record on success, the
original on a thrown error or panic (no partial mutation precedes a failure
in any embedded operation). -/
def stateAfter (g : GlobalEnvironmentRecord) :
    Outcome GlobalEnvironmentRecord → GlobalEnvironmentRecord
  | .ok g' => g'
  | .err _ => g
  | .panicked _ => g

namespace GlobalEnvironmentRecord

/-- `has_var_declaration`: membership in the var-names set. -/
def has_var_declaration (g : GlobalEnvironmentRecord) (n : String) : Bool :=
  g.var_names.contains n

/-- `has_lexical_declaration`: has-binding on the declarative record. -/
def has_lexical_declaration (g : GlobalEnvironmentRecord) (n : String) : Bool :=
  g.declarative_record.has_binding n

/-- `has_restricted_global_property`: an existing property is restricted iff
it is not configurable; an absent property is not restricted. -/
def has_restricted_global_property (g : GlobalEnvironmentRecord) (n : String) :
    Outcome Bool :=
  match g.object_record.bindings.get_property n with
  | some desc =>
    match desc.expect_configurable with
    | .ok c => .ok (!c)
    | .err e => .err e
    | .panicked m => .panicked m
  | none => .ok false

/-- `can_declare_global_var`: the property already exists, or the global is
extensible. -/
def can_declare_global_var (g : GlobalEnvironmentRecord) (n : String) : Bool :=
  if g.object_record.bindings.has_field n then true
  else g.object_record.bindings.is_extensible

/-- `can_declare_global_function`: an absent property defers to extensibility;
an existing property passes iff `expect_configurable() ||
enumerable().zip(writable()).map_or(false, |(a, b)| a && b)`. -/
def can_declare_global_function (g : GlobalEnvironmentRecord) (n : String) :
    Outcome Bool :=
  match g.object_record.bindings.get_property n with
  | some prop =>
    match prop.expect_configurable with
    | .ok c =>
      -- `enumerable().zip(writable()).map_or(false, |(a, b)| a && b)`
      .ok (c || (match prop.enumerable, prop.writable with
                 | some a, some b => a && b
                 | _, _ => false))
    | .err e => .err e
    | .panicked m => .panicked m
  | none => .ok g.object_record.bindings.is_extensible

/-- `create_global_var_binding(name, deletion)`: when the global lacks the
property and is extensible, create and initialize (to undefined) a mutable
object-record binding; in every case record the name in var-names unless it
is already there. -/
def create_global_var_binding (g : GlobalEnvironmentRecord) (n : String)
    (deletion : Bool) : Outcome GlobalEnvironmentRecord :=
  let global_object := g.object_record.bindings
  let has_property := global_object.has_field n
  let extensible := global_object.is_extensible
  let obj_rec :=
    if !has_property && extensible then
      (g.object_record.create_mutable_binding n deletion).initialize_binding n .undefined
    else g.object_record
  let var_declared_names :=
    if g.var_names.contains n then g.var_names else n :: g.var_names
  .ok { g with object_record := obj_rec, var_names := var_declared_names }

/-- `create_global_function_binding(name, value, deletion)`: an absent or
configurable existing property gets a bare `{ value }` descriptor (defaults
filled by the insert); otherwise the descriptor is
`{ value, writable: true, enumerable: true, configurable: deletion }`.
The match guard runs `expect_configurable`, so a descriptor whose
configurable attribute was never set panics. var-names is not touched. -/
def create_global_function_binding (g : GlobalEnvironmentRecord) (n : String)
    (value : JsValue) (deletion : Bool) : Outcome GlobalEnvironmentRecord :=
  let global_object := g.object_record.bindings
  let install (d : PropertyDescriptor) : GlobalEnvironmentRecord :=
    { g with object_record := { g.object_record with bindings := global_object.insert n d } }
  match global_object.get_property n with
  | some desc =>
    match desc.expect_configurable with
    | .ok true => .ok (install { value := some value })
    | .ok false =>
      .ok (install { value := some value, writable := some true, enumerable := some true,
                     configurable := some deletion })
    | .err e => .err e
    | .panicked m => .panicked m
  | none => .ok (install { value := some value })

/-- `has_binding`: the declarative record first, then the object record. -/
def has_binding (g : GlobalEnvironmentRecord) (n : String) : Bool :=
  if g.declarative_record.has_binding n then true
  else g.object_record.has_binding n

/-- `create_mutable_binding(name, deletion, allow_name_reuse)`: a name already
bound in the declarative record is a type error unless reuse is allowed;
otherwise delegate to the declarative record. -/
def create_mutable_binding (g : GlobalEnvironmentRecord) (n : String)
    (deletion allow_name_reuse : Bool) : Outcome GlobalEnvironmentRecord :=
  if !allow_name_reuse && g.declarative_record.has_binding n then
    .err (.typeError ("Binding already exists for " ++ n))
  else
    Outcome.map (fun d => { g with declarative_record := d })
      (g.declarative_record.create_mutable_binding n deletion allow_name_reuse)

/-- `create_immutable_binding(name, strict)`: a name already bound in the
declarative record is a type error; otherwise delegate. -/
def create_immutable_binding (g : GlobalEnvironmentRecord) (n : String)
    (strict : Bool) : Outcome GlobalEnvironmentRecord :=
  if g.declarative_record.has_binding n then
    .err (.typeError ("Binding already exists for " ++ n))
  else
    Outcome.map (fun d => { g with declarative_record := d })
      (g.declarative_record.create_immutable_binding n strict)

/-- `initialize_binding`: the declarative record when it has the name;
otherwise the object record, after `assert!(object_record.has_binding(name))`
(a failed assert aborts). -/
def initialize_binding (g : GlobalEnvironmentRecord) (n : String) (v : JsValue) :
    Outcome GlobalEnvironmentRecord :=
  if g.declarative_record.has_binding n then
    Outcome.map (fun d => { g with declarative_record := d })
      (g.declarative_record.initialize_binding n v)
  else if g.object_record.has_binding n then
    .ok { g with object_record := g.object_record.initialize_binding n v }
  else .panicked "Binding must be in object_record"

/-- `set_mutable_binding(name, value, strict)`: the declarative record when it
has the name; otherwise the object record. -/
def set_mutable_binding (g : GlobalEnvironmentRecord) (n : String) (v : JsValue)
    (strict : Bool) : Outcome GlobalEnvironmentRecord :=
  if g.declarative_record.has_binding n then
    Outcome.map (fun d => { g with declarative_record := d })
      (g.declarative_record.set_mutable_binding n v strict)
  else
    Outcome.map (fun o => { g with object_record := o })
      (g.object_record.set_mutable_binding n v strict)

/-- `get_binding_value(name, strict)`: the declarative record when it has the
name; otherwise the object record. -/
def get_binding_value (g : GlobalEnvironmentRecord) (n : String) (strict : Bool) :
    Outcome JsValue :=
  if g.declarative_record.has_binding n then
    g.declarative_record.get_binding_value n strict
  else g.object_record.get_binding_value n strict

/-- `delete_binding(name)` as the source has it: delegate to the declarative
record when it has the name; else, when the global object has the property,
attempt the deletion, and when it succeeded and the name sits in var-names,
remove it there and return the status; every remaining path falls through to
the final `true`. -/
def delete_binding (g : GlobalEnvironmentRecord) (n : String) :
    Bool × GlobalEnvironmentRecord :=
  if g.declarative_record.has_binding n then
    let (b, d) := g.declarative_record.delete_binding n
    (b, { g with declarative_record := d })
  else if g.object_record.bindings.has_field n then
    let (status, o) := g.object_record.delete_binding n
    let g' := { g with object_record := o }
    if status then
      if g'.var_names.contains n then
        (status, { g' with var_names := g'.var_names.erase n })
      else (true, g')
    else (true, g')
  else (true, g)

end GlobalEnvironmentRecord

/-! ## Concrete instances used by witnesses and counterexamples -/

/-- A function environment record whose `this` is already bound (as
`FunctionEnvironmentRecord::new` leaves it when a `this` value is passed). -/
def funcRecInitialized : FunctionEnvironmentRecord :=
  { declarative_record := ⟨[]⟩
    this_value := .boolean true
    this_binding_status := .Initialized
    function := ⟨0⟩
    home_object := .undefined
    new_target := .undefined }

/-- A non-arrow function environment record whose `home_object` holds a value
that is neither undefined nor an object. -/
def funcRecNullHome : FunctionEnvironmentRecord :=
  { declarative_record := ⟨[]⟩
    this_value := .undefined
    this_binding_status := .Uninitialized
    function := ⟨0⟩
    home_object := .null
    new_target := .undefined }

/-- A global environment record over an empty, non-extensible global object. -/
def emptyGlobalInextensible : GlobalEnvironmentRecord :=
  { object_record := { bindings := { properties := [], extensible := false },
                       with_environment := false }
    global_this_binding := ⟨0⟩
    declarative_record := ⟨[]⟩
    var_names := [] }

/-- A non-configurable, non-writable, enumerable data property. -/
def frozenXDescriptor : PropertyDescriptor :=
  { value := some (.boolean true), writable := some false,
    enumerable := some true, configurable := some false }

/-- A global environment record whose global object holds a non-configurable,
non-writable, enumerable property named x. -/
def globalWithFrozenX : GlobalEnvironmentRecord :=
  { object_record :=
      { bindings := { properties := [("x", frozenXDescriptor)], extensible := true }
        with_environment := false }
    global_this_binding := ⟨0⟩
    declarative_record := ⟨[]⟩
    var_names := [] }

/-! ## C1 — `bind_this_value` on an `Initialized` record -/

/-- C1: the claim says a second `bind_this_value` on an `Initialized` function
record raises a reference error ("Cannot bind to an initialised function") as
a thrown result. The code instead hits `todo!()` — a process abort with the
message "not yet implemented"; the intended `throw_reference_error` call is
commented out. This theorem pins the code's actual behaviour at every such
record: a panic, not a thrown error. -/
theorem bind_this_value_initialized_aborts
    (r : FunctionEnvironmentRecord) (v : JsValue)
    (h : r.this_binding_status = BindingStatus.Initialized) :
    r.bind_this_value v = Outcome.panicked "not yet implemented" := by
  simp [FunctionEnvironmentRecord.bind_this_value, h]

/-- C1 witness: the abort is reached at a concrete initialized record. -/
theorem bind_this_value_initialized_aborts_witness :
    funcRecInitialized.bind_this_value JsValue.undefined
      = Outcome.panicked "not yet implemented" :=
  bind_this_value_initialized_aborts funcRecInitialized JsValue.undefined rfl

/-! ## C8 — `has_super_binding` -/

/-- C8 counterexample: a non-lexical record whose `home_object` is null — not
an object — yet `has_super_binding` returns true, because the code tests
`!home_object.is_undefined()` rather than `home_object.is_object()`. The
claim as stated (true iff not Lexical and home_object is an object) demands
false here. -/
theorem has_super_binding_claim_counterexample :
    funcRecNullHome.has_super_binding = true ∧
    funcRecNullHome.home_object.is_object = false ∧
    funcRecNullHome.this_binding_status ≠ BindingStatus.Lexical := by
  refine ⟨rfl, rfl, by decide⟩

/-- C8 amended: `has_super_binding` returns true iff `this_binding_status` is
not `Lexical` and `home_object` is not undefined (for the data model's
intended states, where `home_object` is an object or undefined, this
coincides with "is an object"); when the status is `Lexical` it returns false
regardless of `home_object`. -/
theorem has_super_binding_amended (r : FunctionEnvironmentRecord) :
    (r.has_super_binding = true ↔
      (r.this_binding_status ≠ BindingStatus.Lexical ∧
        r.home_object.is_undefined = false)) ∧
    (r.this_binding_status = BindingStatus.Lexical → r.has_super_binding = false) := by
  cases h : r.this_binding_status <;>
    cases hv : r.home_object <;>
      simp [FunctionEnvironmentRecord.has_super_binding, JsValue.is_undefined, h, hv]

/-! ## C10 — `create_global_var_binding` on a non-extensible global -/

/-- C10: when the global object lacks the property and is not extensible,
`create_global_var_binding` skips the object-record mutation entirely, still
records the name in the var-names set, and reports success; afterwards
`has_var_declaration(name)` is true though no global binding exists. -/
theorem create_global_var_binding_on_inextensible
    (g : GlobalEnvironmentRecord) (n : String) (deletion : Bool)
    (h1 : g.object_record.bindings.has_field n = false)
    (h2 : g.object_record.bindings.is_extensible = false) :
    g.create_global_var_binding n deletion =
      .ok { g with var_names :=
              if g.var_names.contains n then g.var_names else n :: g.var_names } ∧
    (stateAfter g (g.create_global_var_binding n deletion)).object_record
      = g.object_record ∧
    (stateAfter g (g.create_global_var_binding n deletion)).has_var_declaration n
      = true := by
  have hmain : g.create_global_var_binding n deletion =
      .ok { g with var_names :=
              if g.var_names.contains n then g.var_names else n :: g.var_names } := by
    simp [GlobalEnvironmentRecord.create_global_var_binding, h1, h2]
  refine ⟨hmain, ?_, ?_⟩
  · rw [hmain]; rfl
  · rw [hmain]
    by_cases hb : n ∈ g.var_names <;>
      simp [stateAfter, GlobalEnvironmentRecord.has_var_declaration, hb]

/-- C10 witness: on the empty non-extensible global, declaring var x
succeeds and records x as a var declaration. -/
theorem create_global_var_binding_on_inextensible_witness :
    emptyGlobalInextensible.create_global_var_binding "x" false
      = .ok { emptyGlobalInextensible with var_names := ["x"] } ∧
    (stateAfter emptyGlobalInextensible
        (emptyGlobalInextensible.create_global_var_binding "x" false)).has_var_declaration "x"
      = true := by
  have h := create_global_var_binding_on_inextensible emptyGlobalInextensible "x" false rfl rfl
  exact ⟨h.1, h.2.2⟩

/-! ## C7 — `can_declare_global_function` -/

/-- C7: with no such property on the global object, the answer is the global's
extensibility; with an existing configurable property, true; with an existing
non-configurable property, true exactly when the property is both writable
and enumerable — an unset writable or enumerable attribute counts as false. -/
theorem can_declare_global_function_spec (g : GlobalEnvironmentRecord) (n : String) :
    (g.object_record.bindings.get_property n = none →
      g.can_declare_global_function n = .ok g.object_record.bindings.is_extensible) ∧
    (∀ p : PropertyDescriptor, g.object_record.bindings.get_property n = some p →
      (p.configurable = some true → g.can_declare_global_function n = .ok true) ∧
      (p.configurable = some false →
        (g.can_declare_global_function n = .ok true ↔
          p.writable = some true ∧ p.enumerable = some true))) := by
  constructor
  · intro h
    simp [GlobalEnvironmentRecord.can_declare_global_function, h]
  · intro p hp
    constructor
    · intro hc
      simp [GlobalEnvironmentRecord.can_declare_global_function, hp,
        PropertyDescriptor.expect_configurable, hc]
    · intro hc
      cases hw : p.writable <;> cases he : p.enumerable <;>
        simp [GlobalEnvironmentRecord.can_declare_global_function, hp,
          PropertyDescriptor.expect_configurable, hc, hw, he, and_comm]

/-- C7 witness: a frozen (non-configurable, non-writable) enumerable property
named x forbids declaring a global function x. -/
theorem can_declare_global_function_spec_witness :
    globalWithFrozenX.can_declare_global_function "x" ≠ Outcome.ok true := by
  have h := (can_declare_global_function_spec globalWithFrozenX "x").2
    frozenXDescriptor (by rfl)
  intro hcontra
  exact absurd ((h.2 (by rfl)).mp hcontra).1 (by decide)

/-! ## C4 — declarative bindings shadow the global object -/

/-- C4: when the declarative record has the name, `get_binding_value`,
`set_mutable_binding` and `initialize_binding` on the global record are the
declarative record's operations — the result is a function of the declarative
half alone and the object record is left untouched; only when the declarative
record lacks the name do they fall through to the object record over the
global object (for `initialize_binding`, behind the object-record assert). -/
theorem global_declarative_shadows_object
    (g : GlobalEnvironmentRecord) (n : String) (v : JsValue) (strict : Bool) :
    (g.declarative_record.has_binding n = true →
      g.get_binding_value n strict = g.declarative_record.get_binding_value n strict ∧
      g.set_mutable_binding n v strict =
        Outcome.map (fun d => { g with declarative_record := d })
          (g.declarative_record.set_mutable_binding n v strict) ∧
      (stateAfter g (g.set_mutable_binding n v strict)).object_record
        = g.object_record ∧
      g.initialize_binding n v =
        Outcome.map (fun d => { g with declarative_record := d })
          (g.declarative_record.initialize_binding n v) ∧
      (stateAfter g (g.initialize_binding n v)).object_record = g.object_record) ∧
    (g.declarative_record.has_binding n = false →
      g.get_binding_value n strict = g.object_record.get_binding_value n strict ∧
      g.set_mutable_binding n v strict =
        Outcome.map (fun o => { g with object_record := o })
          (g.object_record.set_mutable_binding n v strict) ∧
      (g.object_record.has_binding n = true →
        g.initialize_binding n v =
          .ok { g with object_record := g.object_record.initialize_binding n v }) ∧
      (g.object_record.has_binding n = false →
        g.initialize_binding n v = .panicked "Binding must be in object_record")) := by
  constructor
  · intro h
    refine ⟨?_, ?_, ?_, ?_, ?_⟩
    · simp [GlobalEnvironmentRecord.get_binding_value, h]
    · simp [GlobalEnvironmentRecord.set_mutable_binding, h]
    · simp only [GlobalEnvironmentRecord.set_mutable_binding, h, if_true]
      cases g.declarative_record.set_mutable_binding n v strict <;>
        simp [stateAfter, Outcome.map]
    · simp [GlobalEnvironmentRecord.initialize_binding, h]
    · simp only [GlobalEnvironmentRecord.initialize_binding, h, if_true]
      cases g.declarative_record.initialize_binding n v <;>
        simp [stateAfter, Outcome.map]
  · intro h
    refine ⟨?_, ?_, ?_, ?_⟩
    · simp [GlobalEnvironmentRecord.get_binding_value, h]
    · simp [GlobalEnvironmentRecord.set_mutable_binding, h]
    · intro ho
      simp [GlobalEnvironmentRecord.initialize_binding, h, ho]
    · intro ho
      simp [GlobalEnvironmentRecord.initialize_binding, h, ho]

/-- C4 witness: with a lexical x (initialized to true) in the declarative half
and a same-named global-object property valued false, reading x through the
global record yields the declarative value. -/
theorem global_declarative_shadows_object_witness :
    GlobalEnvironmentRecord.get_binding_value
      { object_record :=
          { bindings :=
              { properties := [("x", { value := some (.boolean false), writable := some true,
                                       enumerable := some true, configurable := some true })]
                extensible := true }
            with_environment := false }
        global_this_binding := ⟨0⟩
        declarative_record :=
          ⟨[("x", { value := some (.boolean true), mutable_binding := true,
                    deletable := false, strict := false })]⟩
        var_names := ["x"] } "x" false = Outcome.ok (JsValue.boolean true) := by
  rw [(global_declarative_shadows_object _ "x" JsValue.undefined false).1 (by rfl) |>.1]
  rfl

/-! ## C5 — `delete_binding` on the global record -/

/-- C5: `delete_binding` delegates to the declarative record when it has the
name; otherwise, when the global object has the property, the deletion is
attempted, and on success the name is removed from var-names if recorded
there; in every remaining case — name present nowhere, or the property
deletion failing — the call returns true and leaves var-names alone, so the
caller cannot tell a successful deletion from nothing-to-delete. -/
theorem global_delete_binding_spec (g : GlobalEnvironmentRecord) (n : String) :
    (g.declarative_record.has_binding n = true →
      g.delete_binding n = ((g.declarative_record.delete_binding n).1,
        { g with declarative_record := (g.declarative_record.delete_binding n).2 })) ∧
    (g.declarative_record.has_binding n = false →
      (g.delete_binding n).1 = true ∧
      (g.object_record.bindings.has_field n = false → g.delete_binding n = (true, g)) ∧
      (g.object_record.bindings.has_field n = true →
        ((g.object_record.delete_binding n).1 = true →
          (g.delete_binding n).2.object_record = (g.object_record.delete_binding n).2 ∧
          (g.delete_binding n).2.var_names =
            (if g.var_names.contains n then g.var_names.erase n else g.var_names)) ∧
        ((g.object_record.delete_binding n).1 = false →
          (g.delete_binding n).2 =
            { g with object_record := (g.object_record.delete_binding n).2 }))) := by
  rcases hso : g.object_record.delete_binding n with ⟨status, o⟩
  constructor
  · intro h
    simp [GlobalEnvironmentRecord.delete_binding, h]
  · intro h
    by_cases hf : g.object_record.bindings.has_field n
    · refine ⟨?_, ?_, ?_⟩
      · cases status <;>
          by_cases hc : n ∈ g.var_names <;>
            simp [GlobalEnvironmentRecord.delete_binding, h, hf, hso, hc]
      · intro hcontra; simp [hf] at hcontra
      · intro _
        constructor
        · intro hst
          subst hst
          by_cases hc : n ∈ g.var_names <;>
            simp [GlobalEnvironmentRecord.delete_binding, h, hf, hso, hc]
        · intro hst
          subst hst
          simp [GlobalEnvironmentRecord.delete_binding, h, hf, hso]
    · have hf' : g.object_record.bindings.has_field n = false := by
        simpa using hf
      refine ⟨?_, ?_, ?_⟩
      · simp [GlobalEnvironmentRecord.delete_binding, h, hf']
      · intro _; simp [GlobalEnvironmentRecord.delete_binding, h, hf']
      · intro hcontra; simp [hf'] at hcontra

/-- C5 witness: deleting a name that is bound nowhere reports true and changes
nothing. -/
theorem global_delete_binding_spec_witness :
    emptyGlobalInextensible.delete_binding "y" = (true, emptyGlobalInextensible) :=
  ((global_delete_binding_spec emptyGlobalInextensible "y").2 (by rfl)).2.1 (by rfl)

/-! ## C6 — evolution of the var-names set -/

/-- C6: across the global record's mutating operations, the var-names set
grows only through `create_global_var_binding` (an idempotent insert of the
name), shrinks only when `delete_binding` removes a name already recorded
there, and is untouched by everything else — in particular
`create_global_function_binding` installs the property but never adds the
name. (The query operations — `has_binding`, `has_var_declaration`,
`has_lexical_declaration`, `has_restricted_global_property`,
`can_declare_global_var`, `can_declare_global_function`, `get_binding_value` —
are pure functions of the record in this embedding and mutate nothing by
construction.) -/
theorem global_var_names_evolution
    (g : GlobalEnvironmentRecord) (n : String) (v : JsValue)
    (deletion strict allow_name_reuse : Bool) :
    (stateAfter g (g.create_global_var_binding n deletion)).var_names =
      (if g.var_names.contains n then g.var_names else n :: g.var_names) ∧
    (stateAfter g (g.create_global_function_binding n v deletion)).var_names
      = g.var_names ∧
    (stateAfter g (g.create_mutable_binding n deletion allow_name_reuse)).var_names
      = g.var_names ∧
    (stateAfter g (g.create_immutable_binding n strict)).var_names = g.var_names ∧
    (stateAfter g (g.initialize_binding n v)).var_names = g.var_names ∧
    (stateAfter g (g.set_mutable_binding n v strict)).var_names = g.var_names ∧
    ((g.delete_binding n).2.var_names = g.var_names ∨
      ((g.delete_binding n).2.var_names = g.var_names.erase n ∧ n ∈ g.var_names)) := by
  refine ⟨?_, ?_, ?_, ?_, ?_, ?_, ?_⟩
  · simp only [GlobalEnvironmentRecord.create_global_var_binding, stateAfter]
  · simp only [GlobalEnvironmentRecord.create_global_function_binding]
    rcases hgp : g.object_record.bindings.get_property n with _ | d
    · simp [stateAfter]
    · rcases hdc : d.configurable with _ | b
      · simp [PropertyDescriptor.expect_configurable, hdc, stateAfter]
      · cases b <;> simp [PropertyDescriptor.expect_configurable, hdc, stateAfter]
  · simp only [GlobalEnvironmentRecord.create_mutable_binding]
    by_cases h : !allow_name_reuse && g.declarative_record.has_binding n
    · simp [h, stateAfter]
    · simp only [h, if_false, Bool.false_eq_true]
      cases g.declarative_record.create_mutable_binding n deletion allow_name_reuse <;>
        simp [stateAfter, Outcome.map]
  · simp only [GlobalEnvironmentRecord.create_immutable_binding]
    by_cases h : g.declarative_record.has_binding n
    · simp [h, stateAfter]
    · simp only [h, if_false, Bool.false_eq_true]
      cases g.declarative_record.create_immutable_binding n strict <;>
        simp [stateAfter, Outcome.map]
  · simp only [GlobalEnvironmentRecord.initialize_binding]
    by_cases h : g.declarative_record.has_binding n
    · simp only [h, if_true]
      cases g.declarative_record.initialize_binding n v <;>
        simp [stateAfter, Outcome.map]
    · by_cases ho : g.object_record.has_binding n <;>
        simp [h, ho, stateAfter]
  · simp only [GlobalEnvironmentRecord.set_mutable_binding]
    by_cases h : g.declarative_record.has_binding n
    · simp only [h, if_true]
      cases g.declarative_record.set_mutable_binding n v strict <;>
        simp [stateAfter, Outcome.map]
    · simp only [h, if_false, Bool.false_eq_true]
      cases g.object_record.set_mutable_binding n v strict <;>
        simp [stateAfter, Outcome.map]
  · simp only [GlobalEnvironmentRecord.delete_binding]
    by_cases h : g.declarative_record.has_binding n
    · left; simp [h]
    · rcases hso : g.object_record.delete_binding n with ⟨status, o⟩
      by_cases hf : g.object_record.bindings.has_field n
      · cases status
        · left; simp [h, hf, hso]
        · by_cases hc : n ∈ g.var_names
          · right; simp [h, hf, hso, hc]
          · left; simp [h, hf, hso, hc]
      · left
        have hf' : g.object_record.bindings.has_field n = false := by simpa using hf
        simp [h, hf']

/-! ## C2 — `string_to_number` -/

/-- C2 counterexample: the claim asserts `string_to_number("0xFF") == 255.0`,
but the code has no radix handling — the trimmed string misses every special
arm, and the fast-float grammar rejects hexadecimal notation (after the digit
0 the x is unconsumed input), so the result is NaN, not 255. -/
theorem string_to_number_hex_counterexample :
    JsString.string_to_number "0xFF".data = JsNumber.nan ∧
    JsNumber.nan ≠ JsNumber.finite 255 := by
  exact ⟨by decide, by decide⟩

/-- C2 amended: `string_to_number` first trims the engine's whitespace set and
then returns, in order: 0.0 for the empty string; +Infinity for Infinity and
+Infinity; -Infinity for -Infinity; NaN when the first four characters
case-insensitively match inf, +inf, -inf, nan, +nan or -nan; otherwise the
fast-float parse of the trimmed string, NaN on parse failure — with the one
corrected example, `string_to_number("0xFF") == NaN` (fast-float has no
hexadecimal notation), alongside the claim's other examples. -/
theorem string_to_number_amended :
    (∀ s : JsStr, JsString.string_to_number s = stringToNumberAmendedSpec s) ∧
    JsString.string_to_number "".data = JsNumber.finite 0 ∧
    JsString.string_to_number "  42 ".data = JsNumber.finite 42 ∧
    JsString.string_to_number "Infinity".data = JsNumber.posInf ∧
    JsString.string_to_number "+Infinity".data = JsNumber.posInf ∧
    JsString.string_to_number "-Infinity".data = JsNumber.negInf ∧
    JsString.string_to_number "inf".data = JsNumber.nan ∧
    JsString.string_to_number "0xFF".data = JsNumber.nan ∧
    JsString.string_to_number "abc".data = JsNumber.nan := by
  refine ⟨?_, by decide, by decide, by decide, by decide, by decide, by decide,
    by decide, by decide⟩
  intro s
  simp only [JsString.string_to_number, stringToNumberAmendedSpec]
  set t := trimMatches is_trimmable_whitespace s with ht
  by_cases h1 : t = []
  · simp [h1]
  · by_cases h2 : t = "Infinity".data
    · simp [h1, h2]
    · by_cases h3 : t = "+Infinity".data
      · simp [h1, h2, h3]
      · by_cases h4 : t = "-Infinity".data
        · simp [h1, h2, h3, h4]
        · rcases hp : fastFloatParse t with _ | x <;>
            simp [h1, h2, h3, h4, hp]

/-! ## C3 — `index_of` -/

theorem encodeUtf16Char_length_pos (c : Char) : 1 ≤ (encodeUtf16Char c).length := by
  by_cases h : c.toNat < 0x10000 <;> simp [encodeUtf16Char, h]

theorem utf16_cons (c : Char) (cs : List Char) :
    utf16 (c :: cs) = encodeUtf16Char c ++ utf16 cs := by
  simp [utf16]

theorem utf16_length_pos (c : Char) (cs : List Char) :
    1 ≤ (utf16 (c :: cs)).length := by
  rw [utf16_cons, List.length_append]
  have := encodeUtf16Char_length_pos c
  omega

/-- The scanning loop of `index_of` finds exactly the least matching position:
it agrees with `List.find?` over the ascending candidate range
`from_index ≤ i ≤ len − searchLen`, provided the needle occupies at least one
code unit. -/
theorem indexOfLoop_eq_find (s16 : List Nat) (needle : JsStr) (searchLen len : Nat)
    (hs : 1 ≤ searchLen) :
    ∀ rem i, rem = len + 1 - i →
      indexOfLoop s16 needle searchLen len i rem =
        (List.range' i (len + 1 - searchLen - i)).find?
          (fun j => decide (jsCandidate s16 j searchLen = needle)) := by
  intro rem
  induction rem with
  | zero =>
    intro i hi
    have hcount : len + 1 - searchLen - i = 0 := by omega
    simp [indexOfLoop, hcount]
  | succ rm ih =>
    intro i hi
    by_cases hbr : (i : Int) > (len : Int) - (searchLen : Int)
    · have hcount : len + 1 - searchLen - i = 0 := by omega
      simp [indexOfLoop, hbr, hcount]
    · have hcount : len + 1 - searchLen - i = (len + 1 - searchLen - (i + 1)) + 1 := by
        omega
      rw [hcount, List.range'_succ]
      by_cases hm : jsCandidate s16 i searchLen = needle
      · simp [indexOfLoop, hbr, hm, List.find?]
      · have hstep : indexOfLoop s16 needle searchLen len i (rm + 1)
            = indexOfLoop s16 needle searchLen len (i + 1) rm := by
          simp [indexOfLoop, hbr, hm]
        rw [hstep, ih (i + 1) (by omega)]
        simp [List.find?, hm]

/-- C3 counterexample: searching the single astral character 𝌆 (code units
0xD834, 0xDF06) for the needle U+FFFD. The claim's condition — a code-unit
substring equal to the needle's code units — holds at no position (both
length-1 substrings are surrogate halves, the needle's only code unit is
0xFFFD, and len = 2, searchLen = 1 leaves positions 0 and 1), so the claim
demands none; the code decodes each candidate with `from_utf16_lossy`, which
turns the lone high surrogate at position 0 into U+FFFD, and returns some 0. -/
theorem index_of_claim_counterexample :
    JsString.index_of "𝌆".data [Char.ofNat 0xFFFD] 0 = some 0 ∧
    (utf16 "𝌆".data).length = 2 ∧
    utf16 [Char.ofNat 0xFFFD] = [0xFFFD] ∧
    ((utf16 "𝌆".data).drop 0).take 1 ≠ [(0xFFFD : Nat)] ∧
    ((utf16 "𝌆".data).drop 1).take 1 ≠ [(0xFFFD : Nat)] := by
  decide

/-- C3 amended: `index_of` returns `fromIndex` when the needle is empty and
`fromIndex ≤ len`, and otherwise the least `i` with
`fromIndex ≤ i ≤ len − searchLen` whose code-unit substring of length
`searchLen`, decoded with unpaired surrogates replaced by U+FFFD
(`from_utf16_lossy`), equals the needle — none when no such `i` exists (this
agrees with plain code-unit equality whenever the substring does not split a
surrogate pair). All indices are UTF-16 code-unit counts, witnessed by the
claim's examples. -/
theorem index_of_amended :
    (∀ (s search_value : JsStr) (from_index : Nat),
      JsString.index_of s search_value from_index
        = indexOfAmendedSpec s search_value from_index) ∧
    JsString.index_of "".data "".data 0 = some 0 ∧
    JsString.index_of "abc".data "".data 5 = none ∧
    JsString.index_of "aaa".data "aa".data 0 = some 0 ∧
    JsString.index_of "𝌆x".data "x".data 0 = some 2 := by
  refine ⟨?_, by decide, by decide, by decide, by decide⟩
  intro s needle fi
  simp only [JsString.index_of, indexOfAmendedSpec]
  rcases needle with _ | ⟨c, cs⟩
  · by_cases hle : fi ≤ (utf16 s).length
    · simp [hle]
    · have h0 : (utf16 s).length + 1 - fi = 0 := by omega
      simp [hle, h0, indexOfLoop]
  · have hs : 1 ≤ (utf16 (c :: cs)).length := utf16_length_pos c cs
    have hne : ¬((c :: cs : List Char) = []) := by simp
    simp only [hne, false_and, if_false]
    exact indexOfLoop_eq_find (utf16 s) (c :: cs) (utf16 (c :: cs)).length
      (utf16 s).length hs ((utf16 s).length + 1 - fi) fi rfl
